import Mathlib

/-!
Verification of the order-system backend's core: order placement
(`CreateOrder` and `CreatePublicOrder` in backend/handler/order_handler.go),
status updates (`UpdateOrderStatus`), status mapping
(backend/utils/validation.go), and the websocket fan-out hub
(`orderHub.run`).  The relational store is modelled as explicit state
(lists of rows keyed by ID); GORM transactions are modelled by returning
the pre-call state on error (rollback).  Go `float64` money amounts are
modelled as rationals; Go `int` quantities as integers; row IDs as
naturals.  A `commitOk : Bool` oracle models whether the store's final
commit succeeds (the store contract guarantees atomic commit/rollback).
-/

deriving instance DecidableEq for Except

namespace OrderSystem

/-- Internal order status constants, backend/constants/order_status.go. -/
def orderStatusPending : String := "pending"

def orderStatusConfirmed : String := "confirmed"

def orderStatusPreparing : String := "preparing"

def orderStatusReady : String := "ready"

def orderStatusDelivered : String := "delivered"

def orderStatusCompleted : String := "completed"

def orderStatusCancelled : String := "cancelled"

/-- Simplified frontend order status constants, backend/constants/order_status.go. -/
def frontendOrderStatusActive : String := "active"

def frontendOrderStatusDelivered : String := "delivered"

def frontendOrderStatusPaid : String := "paid"

/-- `MapInternalStatusToFrontend`, backend/utils/validation.go: the Go
`switch` is an equality chain over the status constants, defaulting to the
input itself. -/
def mapInternalStatusToFrontend (internalStatus : String) : String :=
  if internalStatus = orderStatusPending ∨ internalStatus = orderStatusConfirmed ∨
      internalStatus = orderStatusPreparing ∨ internalStatus = orderStatusReady then
    frontendOrderStatusActive
  else if internalStatus = orderStatusDelivered then
    frontendOrderStatusDelivered
  else if internalStatus = orderStatusCompleted then
    frontendOrderStatusPaid
  else
    internalStatus

/-- `MapFrontendStatusToInternal`, backend/utils/validation.go. -/
def mapFrontendStatusToInternal (frontendStatus : String) : String :=
  if frontendStatus = frontendOrderStatusActive then
    orderStatusPending
  else if frontendStatus = frontendOrderStatusDelivered then
    orderStatusDelivered
  else if frontendStatus = frontendOrderStatusPaid then
    orderStatusCompleted
  else
    frontendStatus

/-- A row of the `users` table (backend/models/models.go `User`), the
fields the order path reads. -/
structure User where
  id : Nat
  username : String
  deriving Repr, DecidableEq

/-- A row of the `restaurants` table (models.go `Restaurant`). -/
structure Restaurant where
  id : Nat
  userID : Nat
  name : String
  deriving Repr, DecidableEq

/-- A row of the `tables` table (models.go `Table`). -/
structure Table where
  id : Nat
  restaurantID : Nat
  tableNumber : Int
  deriving Repr, DecidableEq

/-- A row of the `menu_items` table (models.go `MenuItem`). -/
structure MenuItem where
  id : Nat
  restaurantID : Nat
  name : String
  description : String
  price : ℚ
  category : String
  imageURL : String
  quantity : Int
  deriving Repr, DecidableEq

/-- A row of the `order_items` table (models.go `OrderItem`). -/
structure OrderItem where
  id : Nat
  orderID : Nat
  menuItemID : Nat
  quantity : Int
  specialInstructions : String
  deriving Repr, DecidableEq

/-- A row of the `orders` table (models.go `Order`), with its preloaded
`OrderItems`. -/
structure Order where
  id : Nat
  tableID : Nat
  customerName : String
  status : String
  totalAmount : ℚ
  orderItems : List OrderItem
  deriving Repr, DecidableEq

/-- The relational store's state: the tables the order path touches, plus
autoincrement counters for the IDs the store assigns on insert. -/
structure Store where
  users : List User
  restaurants : List Restaurant
  tables : List Table
  menuItems : List MenuItem
  orders : List Order
  nextOrderID : Nat
  nextOrderItemID : Nat
  deriving Repr, DecidableEq

/-- One element of the request body's `order_items` array
(order_handler.go, anonymous request struct). -/
structure OrderLineRequest where
  menuItemID : Nat
  quantity : Int
  specialInstructions : String
  deriving Repr, DecidableEq

/-- The request body of `CreateOrder` / `CreatePublicOrder`. -/
structure OrderRequest where
  tableID : Nat
  customerName : String
  orderItems : List OrderLineRequest
  deriving Repr, DecidableEq

/-- The error outcomes of the order handlers (the distinct error
responses in order_handler.go). -/
inductive OrderError where
  | restaurantNotFound
  | tableNotFound
  | itemNotFound
  | orderNotFound
  | insufficientStock (itemName : String)
  | storeFailure
  deriving Repr, DecidableEq

/-- `DB.Where("id = ? AND restaurant_id = ?", ...).First(&menuItem)`. -/
def findMenuItem (menuItems : List MenuItem) (menuItemID restaurantID : Nat) :
    Option MenuItem :=
  menuItems.find? (fun m => m.id == menuItemID && m.restaurantID == restaurantID)

/-- `tx.Save(&menuItem)`: overwrite the row with this primary key. -/
def saveMenuItem (menuItems : List MenuItem) (updated : MenuItem) : List MenuItem :=
  menuItems.map (fun m => if m.id == updated.id then updated else m)

/-- `if quantity <= 0 { quantity = 1 }` (order_handler.go, both entry
points). -/
def normalizeQuantity (q : Int) : Int :=
  if q ≤ 0 then 1 else q

/-- The `models.OrderItem` value appended for one request line; `ID` and
`OrderID` are Go zero values until the store assigns them on insert. -/
def mkOrderItem (line : OrderLineRequest) : OrderItem :=
  { id := 0, orderID := 0, menuItemID := line.menuItemID,
    quantity := normalizeQuantity line.quantity,
    specialInstructions := line.specialInstructions }

/-- The in-transaction accumulator of `CreatePublicOrder`'s loop body:
the (locked) menu-item rows as mutated so far, `totalAmount`, and
`orderItems`. -/
structure TxState where
  menuItems : List MenuItem
  totalAmount : ℚ
  orderItems : List OrderItem
  deriving Repr, DecidableEq

/-- One iteration of `CreatePublicOrder`'s transaction loop
(order_handler.go lines 430-463): locked lookup, quantity normalization,
stock check, total accumulation, decrement with clamp, save, append. -/
def reserveLine (restaurantID : Nat) (st : TxState) (line : OrderLineRequest) :
    Except OrderError TxState :=
  match findMenuItem st.menuItems line.menuItemID restaurantID with
  | none => .error .itemNotFound
  | some menuItem =>
    let quantity := normalizeQuantity line.quantity
    if menuItem.quantity < quantity then
      .error (.insufficientStock menuItem.name)
    else
      let totalAmount := st.totalAmount + menuItem.price * (quantity : ℚ)
      let decremented := menuItem.quantity - quantity
      let clamped := if decremented < 0 then 0 else decremented
      .ok { menuItems := saveMenuItem st.menuItems { menuItem with quantity := clamped },
            totalAmount := totalAmount,
            orderItems := st.orderItems ++ [mkOrderItem line] }

/-- `CreatePublicOrder`'s transaction loop over all request lines; the
first error aborts the whole transaction. -/
def runLines (restaurantID : Nat) (st : TxState) :
    List OrderLineRequest → Except OrderError TxState
  | [] => .ok st
  | line :: rest =>
    match reserveLine restaurantID st line with
    | .error e => .error e
    | .ok st2 => runLines restaurantID st2 rest

/-- `CreateOrder`'s loop (order_handler.go lines 72-94): lookup, quantity
normalization, total accumulation, append — no stock check, no
decrement. -/
def computeLines (restaurantID : Nat) (menuItems : List MenuItem) (totalAmount : ℚ)
    (orderItems : List OrderItem) :
    List OrderLineRequest → Except OrderError (ℚ × List OrderItem)
  | [] => .ok (totalAmount, orderItems)
  | line :: rest =>
    match findMenuItem menuItems line.menuItemID restaurantID with
    | none => .error .itemNotFound
    | some menuItem =>
      let quantity := normalizeQuantity line.quantity
      computeLines restaurantID menuItems (totalAmount + menuItem.price * (quantity : ℚ))
        (orderItems ++ [mkOrderItem line]) rest

/-- The store assigns autoincrement IDs to the inserted order-item rows
and links them to their parent order. -/
def assignItemIDs (orderID : Nat) (firstItemID : Nat) :
    List OrderItem → List OrderItem
  | [] => []
  | item :: rest =>
    { item with id := firstItemID, orderID := orderID } ::
      assignItemIDs orderID (firstItemID + 1) rest

/-- `DB.Create(&order)` for an order with status `"pending"` built from
the request (order_handler.go lines 96-104 and 465-477): one atomic
insert of the order row and its item rows, plus (for the public path)
the menu-item rows as mutated inside the transaction. -/
def persistOrder (s : Store) (menuItems : List MenuItem) (req : OrderRequest)
    (totalAmount : ℚ) (orderItems : List OrderItem) : Order × Store :=
  let oid := s.nextOrderID
  let items := assignItemIDs oid s.nextOrderItemID orderItems
  let order : Order :=
    { id := oid, tableID := req.tableID, customerName := req.customerName,
      status := orderStatusPending, totalAmount := totalAmount, orderItems := items }
  (order,
   { s with menuItems := menuItems, orders := s.orders ++ [order],
            nextOrderID := oid + 1,
            nextOrderItemID := s.nextOrderItemID + orderItems.length })

/-- `DB.First(&restaurant, restaurantID)`. -/
def findRestaurant (s : Store) (restaurantID : Nat) : Option Restaurant :=
  s.restaurants.find? (fun r => r.id == restaurantID)

/-- `DB.Where("id = ? AND restaurant_id = ?", ...).First(&table)`. -/
def findTable (s : Store) (tableID restaurantID : Nat) : Option Table :=
  s.tables.find? (fun t => t.id == tableID && t.restaurantID == restaurantID)

/-- `DB.Where("username = ?", username).First(&user)`. -/
def findUser (s : Store) (username : String) : Option User :=
  s.users.find? (fun u => u.username == username)

/-- `verifyRestaurantOwnership` (table_handler.go): resolve the user,
then the restaurant scoped to that user. -/
def verifyRestaurantOwnership (s : Store) (username : String) (restaurantID : Nat) :
    Option Restaurant :=
  match findUser s username with
  | none => none
  | some user => s.restaurants.find? (fun r => r.id == restaurantID && r.userID == user.id)

/-- `CreatePublicOrder` (order_handler.go lines 384-501), state part:
restaurant lookup, table check, then the locking transaction; any error
inside the transaction rolls the store back to its pre-call state. -/
def createPublicOrder (s : Store) (restaurantID : Nat) (req : OrderRequest)
    (commitOk : Bool) : Except OrderError Order × Store :=
  match findRestaurant s restaurantID with
  | none => (.error .restaurantNotFound, s)
  | some restaurant =>
    match findTable s req.tableID restaurant.id with
    | none => (.error .tableNotFound, s)
    | some _ =>
      match runLines restaurant.id
          { menuItems := s.menuItems, totalAmount := 0, orderItems := [] }
          req.orderItems with
      | .error e => (.error e, s)
      | .ok tx =>
        if commitOk then
          let result := persistOrder s tx.menuItems req tx.totalAmount tx.orderItems
          (.ok result.1, result.2)
        else
          (.error .storeFailure, s)

/-- `CreateOrder` (order_handler.go lines 27-123), state part: ownership
check, table check, the no-inventory loop, then a single insert. -/
def createOrder (s : Store) (username : String) (restaurantID : Nat)
    (req : OrderRequest) (commitOk : Bool) : Except OrderError Order × Store :=
  match verifyRestaurantOwnership s username restaurantID with
  | none => (.error .restaurantNotFound, s)
  | some restaurant =>
    match findTable s req.tableID restaurant.id with
    | none => (.error .tableNotFound, s)
    | some _ =>
      match computeLines restaurant.id s.menuItems 0 [] req.orderItems with
      | .error e => (.error e, s)
      | .ok lines =>
        if commitOk then
          let result := persistOrder s s.menuItems req lines.1 lines.2
          (.ok result.1, result.2)
        else
          (.error .storeFailure, s)

/-- The restaurant's table IDs, as collected by the
`Where("restaurant_id = ?", ...).Find(&tables)` loop. -/
def tableIDsOf (s : Store) (restaurantID : Nat) : List Nat :=
  (s.tables.filter (fun t => t.restaurantID == restaurantID)).map (fun t => t.id)

/-- `DB.Save(&order)`: overwrite the order row with this primary key. -/
def saveOrder (orders : List Order) (updated : Order) : List Order :=
  orders.map (fun o => if o.id == updated.id then updated else o)

/-- `UpdateOrderStatus` (order_handler.go lines 242-307), state part:
ownership check, order lookup scoped to the caller's tables, then the
status is translated by `MapFrontendStatusToInternal` and saved. -/
def updateOrderStatus (s : Store) (username : String) (restaurantID orderID : Nat)
    (statusReq : String) (commitOk : Bool) : Except OrderError Order × Store :=
  match verifyRestaurantOwnership s username restaurantID with
  | none => (.error .restaurantNotFound, s)
  | some restaurant =>
    match s.orders.find?
        (fun o => o.id == orderID && (tableIDsOf s restaurant.id).contains o.tableID) with
    | none => (.error .orderNotFound, s)
    | some order =>
      let internalStatus := mapFrontendStatusToInternal statusReq
      let updated := { order with status := internalStatus }
      if commitOk then
        (.ok updated, { s with orders := saveOrder s.orders updated })
      else
        (.error .storeFailure, s)

/-- The request body of `UpdateMenuItem` (menu_handler.go). -/
structure MenuItemUpdateRequest where
  name : String
  description : String
  price : ℚ
  category : String
  imageURL : String
  quantity : Int
  deriving Repr, DecidableEq

/-- `UpdateMenuItem` (menu_handler.go lines 106-146): ownership check,
item lookup, overwrite every mutable field, save.  It never touches the
`orders` table. -/
def updateMenuItem (s : Store) (username : String) (restaurantID itemID : Nat)
    (req : MenuItemUpdateRequest) : Except OrderError MenuItem × Store :=
  match verifyRestaurantOwnership s username restaurantID with
  | none => (.error .restaurantNotFound, s)
  | some restaurant =>
    match findMenuItem s.menuItems itemID restaurant.id with
    | none => (.error .itemNotFound, s)
    | some menuItem =>
      let updated :=
        { menuItem with name := req.name, description := req.description,
                        price := req.price, category := req.category,
                        imageURL := req.imageURL, quantity := req.quantity }
      (.ok updated, { s with menuItems := saveMenuItem s.menuItems updated })

/-- `handler.OrderResponse` (api_models.go): the order snapshot plus the
owning restaurant's name and ID. -/
structure OrderResponse where
  order : Order
  restaurantName : String
  restaurantID : Nat
  deriving Repr, DecidableEq

/-- `buildOrderResponse` (order_handler.go lines 503-533): copy the order
field by field, rebuilding each item, with the status translated by
`MapInternalStatusToFrontend`. -/
def buildOrderResponse (order : Order) (restaurant : Restaurant) : OrderResponse :=
  let updatedOrder := { order with status := mapInternalStatusToFrontend order.status }
  let handlerOrder : Order :=
    { id := updatedOrder.id, tableID := updatedOrder.tableID,
      customerName := updatedOrder.customerName, status := updatedOrder.status,
      totalAmount := updatedOrder.totalAmount,
      orderItems := updatedOrder.orderItems.map (fun item =>
        { id := item.id, orderID := item.orderID, menuItemID := item.menuItemID,
          quantity := item.quantity,
          specialInstructions := item.specialInstructions }) }
  { order := handlerOrder, restaurantName := restaurant.name,
    restaurantID := restaurant.id }

/-- `OrderEvent` (websocket handler file): a typed event wrapping the
order snapshot. -/
structure OrderEvent where
  type : String
  order : OrderResponse
  deriving Repr, DecidableEq

/-- The event published on order creation:
`globalOrderHub.publish("order_created", buildOrderResponse(order, restaurant))`. -/
def orderCreatedEvent (order : Order) (restaurant : Restaurant) : OrderEvent :=
  { type := "order_created", order := buildOrderResponse order restaurant }

/-- The event published on status update:
`globalOrderHub.publish("order_updated", buildOrderResponse(order, restaurant))`. -/
def orderUpdatedEvent (order : Order) (restaurant : Restaurant) : OrderEvent :=
  { type := "order_updated", order := buildOrderResponse order restaurant }

/-- A `wsClient` (websocket handler file): its entitlement set and its
bounded outbound queue, with the queue's fixed capacity. -/
structure WSClient where
  clientID : Nat
  restaurantIDs : List Nat
  send : List OrderEvent
  sendCap : Nat
  deriving Repr, DecidableEq

/-- `newWSClient`: empty queue with channel buffer capacity 32. -/
def newWSClient (clientID : Nat) (restaurantIDs : List Nat) : WSClient :=
  { clientID := clientID, restaurantIDs := restaurantIDs, send := [], sendCap := 32 }

/-- The per-client body of `orderHub.run`'s broadcast case (websocket
handler file, lines 63-76): skip clients with an empty entitlement set,
skip clients not entitled to the event's restaurant, otherwise enqueue
non-blockingly — `select`'s `default` branch removes the client and
closes its queue when the queue is full.  `none` means removed. -/
def stepClient (event : OrderEvent) (client : WSClient) : Option WSClient :=
  if client.restaurantIDs.isEmpty then
    some client
  else if !(client.restaurantIDs.contains event.order.restaurantID) then
    some client
  else if client.send.length < client.sendCap then
    some { client with send := client.send ++ [event] }
  else
    none

/-- The whole fan-out step over the hub's membership set: each client is
handled independently by `stepClient`; removed clients drop out. -/
def fanout (clients : List WSClient) (event : OrderEvent) : List WSClient :=
  clients.filterMap (stepClient event)

/-- Comparison definition for the total-amount property, following the
spec's words ("the persisted total equals Σ(unitPrice × qty) using unit
price at placement time"): the sum over the request lines of the pre-call
store's unit price times the normalized quantity, `none` if a line's
item is absent. -/
def specOrderTotal (menuItems : List MenuItem) (restaurantID : Nat) :
    List OrderLineRequest → Option ℚ
  | [] => some 0
  | line :: rest =>
    match findMenuItem menuItems line.menuItemID restaurantID,
        specOrderTotal menuItems restaurantID rest with
    | some m, some t => some (m.price * ((normalizeQuantity line.quantity : Int) : ℚ) + t)
    | _, _ => none

/-- Catalog equality of menu-item rows: equal except possibly in the
available quantity.  The public transaction loop only ever mutates the
quantity, so its working rows stay catalog-equal to the pre-call rows. -/
def catEq (a b : MenuItem) : Prop :=
  a.id = b.id ∧ a.restaurantID = b.restaurantID ∧ a.name = b.name ∧ a.price = b.price

/- Concrete fixtures used by witnesses and counterexamples. -/

def aliceUser : User := { id := 1, username := "alice" }

def resto1 : Restaurant := { id := 1, userID := 1, name := "Resto" }

def table5 : Table := { id := 5, restaurantID := 1, tableNumber := 1 }

def burger (qty : Int) : MenuItem :=
  { id := 10, restaurantID := 1, name := "Burger", description := "",
    price := 5, category := "main", imageURL := "", quantity := qty }

def pendingOrder9 : Order :=
  { id := 9, tableID := 5, customerName := "Bob", status := "pending",
    totalAmount := 5, orderItems := [] }

def sampleStore (qty : Int) : Store :=
  { users := [aliceUser], restaurants := [resto1], tables := [table5],
    menuItems := [burger qty], orders := [pendingOrder9],
    nextOrderID := 100, nextOrderItemID := 500 }

def oneBurgerReq : OrderRequest :=
  { tableID := 5, customerName := "Bob",
    orderItems := [{ menuItemID := 10, quantity := 1, specialInstructions := "" }] }

def eventFor (rid : Nat) : OrderEvent :=
  { type := "order_created",
    order := { order := pendingOrder9, restaurantName := "Resto", restaurantID := rid } }

def lineBurger : OrderLineRequest :=
  { menuItemID := 10, quantity := 1, specialInstructions := "" }

def txBurger (qty : Int) : TxState :=
  { menuItems := [burger qty], totalAmount := 0, orderItems := [] }

def client12 : WSClient :=
  { clientID := 1, restaurantIDs := [1, 2], send := [], sendCap := 32 }

def client3 : WSClient :=
  { clientID := 2, restaurantIDs := [3], send := [], sendCap := 32 }

def fullClient1 : WSClient :=
  { clientID := 3, restaurantIDs := [1], send := [], sendCap := 0 }

/-- The order persisted by a successful one-Burger placement against
`sampleStore 3` (IDs from the store's autoincrement counters). -/
def createdOrder100 : Order :=
  { id := 100, tableID := 5, customerName := "Bob", status := "pending",
    totalAmount := 5,
    orderItems := [{ id := 500, orderID := 100, menuItemID := 10, quantity := 1,
                     specialInstructions := "" }] }

/-- The store after that successful public placement: one Burger
decremented, the order and its line appended, counters advanced. -/
def storeAfterPublic : Store :=
  { users := [aliceUser], restaurants := [resto1], tables := [table5],
    menuItems := [burger 2], orders := [pendingOrder9, createdOrder100],
    nextOrderID := 101, nextOrderItemID := 501 }

/-- C10: composing the frontend-to-internal status mapping with the
internal-to-frontend mapping is the identity on the three frontend
statuses "active", "delivered" and "paid". -/
theorem status_roundTrip_identity :
    mapInternalStatusToFrontend (mapFrontendStatusToInternal frontendOrderStatusActive) =
        frontendOrderStatusActive ∧
    mapInternalStatusToFrontend (mapFrontendStatusToInternal frontendOrderStatusDelivered) =
        frontendOrderStatusDelivered ∧
    mapInternalStatusToFrontend (mapFrontendStatusToInternal frontendOrderStatusPaid) =
        frontendOrderStatusPaid := by
  decide

/-- C9: every event handed to the hub on creation or update wraps
`buildOrderResponse`, which translates the stored status through
`MapInternalStatusToFrontend` (so "pending" is delivered as "active" and
"completed" as "paid") and copies every other snapshot field of the
persisted order unchanged. -/
theorem orderEvent_snapshot (order : Order) (restaurant : Restaurant) :
    (orderCreatedEvent order restaurant).type = "order_created" ∧
    (orderUpdatedEvent order restaurant).type = "order_updated" ∧
    (orderCreatedEvent order restaurant).order = buildOrderResponse order restaurant ∧
    (orderUpdatedEvent order restaurant).order = buildOrderResponse order restaurant ∧
    (buildOrderResponse order restaurant).order.status =
        mapInternalStatusToFrontend order.status ∧
    mapInternalStatusToFrontend orderStatusPending = frontendOrderStatusActive ∧
    mapInternalStatusToFrontend orderStatusCompleted = frontendOrderStatusPaid ∧
    (buildOrderResponse order restaurant).order.id = order.id ∧
    (buildOrderResponse order restaurant).order.tableID = order.tableID ∧
    (buildOrderResponse order restaurant).order.customerName = order.customerName ∧
    (buildOrderResponse order restaurant).order.totalAmount = order.totalAmount ∧
    (buildOrderResponse order restaurant).order.orderItems = order.orderItems ∧
    (buildOrderResponse order restaurant).restaurantName = restaurant.name ∧
    (buildOrderResponse order restaurant).restaurantID = restaurant.id := by
  refine ⟨rfl, rfl, rfl, rfl, rfl, by decide, by decide, rfl, rfl, rfl, rfl, ?_, rfl, rfl⟩
  show order.orderItems.map _ = order.orderItems
  exact List.map_id order.orderItems

/-- C4 counterexample: the claim says the caller's status string is
stored verbatim; at the concrete input "active" on a visible order, the
stored status is "pending", not "active". -/
theorem updateOrderStatus_not_verbatim :
    ((updateOrderStatus (sampleStore 3) "alice" 1 9 "active" true).1 =
        .ok { pendingOrder9 with status := "pending" }) ∧
    "pending" ≠ "active" := by
  decide

/-- C4 amended: every status string in the request body is accepted
without validation against the status state machine, and the stored
status is `MapFrontendStatusToInternal` of it (which passes every string
other than "active" and "paid" through verbatim). -/
theorem updateOrderStatus_accepts_and_translates (s : Store) (username : String)
    (restaurantID orderID : Nat) (statusReq : String) (r : Restaurant) (o : Order)
    (hr : verifyRestaurantOwnership s username restaurantID = some r)
    (ho : s.orders.find?
        (fun o2 => o2.id == orderID && (tableIDsOf s r.id).contains o2.tableID) = some o) :
    (updateOrderStatus s username restaurantID orderID statusReq true).1 =
        .ok { o with status := mapFrontendStatusToInternal statusReq } ∧
    (updateOrderStatus s username restaurantID orderID statusReq true).2 =
        { s with orders :=
            saveOrder s.orders { o with status := mapFrontendStatusToInternal statusReq } } ∧
    (statusReq ≠ frontendOrderStatusActive → statusReq ≠ frontendOrderStatusPaid →
        mapFrontendStatusToInternal statusReq = statusReq) := by
  refine ⟨?_, ?_, ?_⟩
  · simp only [updateOrderStatus, hr, ho, if_true]
  · simp only [updateOrderStatus, hr, ho, if_true]
  · intro h1 h3
    unfold mapFrontendStatusToInternal
    by_cases ha : statusReq = frontendOrderStatusActive
    · exact absurd ha h1
    by_cases hd : statusReq = frontendOrderStatusDelivered
    · rw [if_neg ha, if_pos hd, hd]
      rfl
    by_cases hp2 : statusReq = frontendOrderStatusPaid
    · exact absurd hp2 h3
    · rw [if_neg ha, if_neg hd, if_neg hp2]

/-- C4 witness: the amended theorem at a concrete store and the status
string "garbage". -/
theorem updateOrderStatus_accepts_and_translates_witness :
    (updateOrderStatus (sampleStore 3) "alice" 1 9 "garbage" true).1 =
        .ok { pendingOrder9 with status := mapFrontendStatusToInternal "garbage" } ∧
    mapFrontendStatusToInternal "garbage" = "garbage" := by
  have h := updateOrderStatus_accepts_and_translates (sampleStore 3) "alice" 1 9 "garbage"
    resto1 pendingOrder9 (by decide) (by decide)
  exact ⟨h.1, h.2.2 (by decide) (by decide)⟩

/-- C5: in the hub's fan-out step, a published event for restaurant R is
enqueued to a registered session exactly when the session's entitlement
set contains R and its queue has room: entitled sessions with room get
the event appended, sessions not entitled to R are left untouched, and
any session the step affects at all is entitled to R. -/
theorem fanout_entitlement (clients : List WSClient) (event : OrderEvent) :
    (∀ c ∈ clients, event.order.restaurantID ∈ c.restaurantIDs →
        c.send.length < c.sendCap →
        { c with send := c.send ++ [event] } ∈ fanout clients event) ∧
    (∀ c : WSClient, event.order.restaurantID ∉ c.restaurantIDs →
        stepClient event c = some c) ∧
    (∀ c ∈ clients, event.order.restaurantID ∉ c.restaurantIDs →
        c ∈ fanout clients event) ∧
    (∀ c : WSClient, stepClient event c ≠ some c →
        event.order.restaurantID ∈ c.restaurantIDs) := by
  have hstep_not : ∀ c : WSClient, event.order.restaurantID ∉ c.restaurantIDs →
      stepClient event c = some c := by
    intro c hmem
    have hcf : c.restaurantIDs.contains event.order.restaurantID = false := by
      rw [← Bool.not_eq_true, List.elem_iff]
      exact hmem
    unfold stepClient
    by_cases hemp : c.restaurantIDs.isEmpty
    · rw [if_pos hemp]
    · rw [if_neg hemp, if_pos (by rw [hcf]; rfl)]
  refine ⟨?_, hstep_not, ?_, ?_⟩
  · intro c hc hmem hlen
    refine List.mem_filterMap.mpr ⟨c, hc, ?_⟩
    have hct : c.restaurantIDs.contains event.order.restaurantID = true :=
      List.elem_iff.mpr hmem
    have hemp : ¬ c.restaurantIDs.isEmpty := by
      intro hemp
      rw [List.isEmpty_iff] at hemp
      rw [hemp] at hmem
      exact List.not_mem_nil _ hmem
    unfold stepClient
    rw [if_neg hemp, if_neg (by rw [hct]; simp), if_pos hlen]
  · intro c hc hmem
    exact List.mem_filterMap.mpr ⟨c, hc, hstep_not c hmem⟩
  · intro c hne
    by_contra hmem
    exact hne (hstep_not c hmem)

/-- C5 witness: a session entitled to restaurants {1, 2} receives the
events for restaurant 1 and restaurant 2, and a session entitled only to
{3} is untouched by the event for restaurant 1. -/
theorem fanout_entitlement_witness :
    { client12 with send := client12.send ++ [eventFor 1] } ∈
        fanout [client12, client3] (eventFor 1) ∧
    { client12 with send := client12.send ++ [eventFor 2] } ∈
        fanout [client12, client3] (eventFor 2) ∧
    client3 ∈ fanout [client12, client3] (eventFor 1) := by
  have h1 := fanout_entitlement [client12, client3] (eventFor 1)
  have h2 := fanout_entitlement [client12, client3] (eventFor 2)
  refine ⟨h1.1 client12 (by simp) (by decide) (by decide),
          h2.1 client12 (by simp) (by decide) (by decide),
          h1.2.2.1 client3 (by simp) (by decide)⟩

/-- C6: delivery to an entitled session never waits: with free queue
capacity the event is enqueued, with a full queue the session is removed
(queue closed, `none`); and the fan-out step decomposes per session, so
a full queue changes nothing about how any other session is handled. -/
theorem fanout_nonblocking (event : OrderEvent) (c : WSClient)
    (hR : event.order.restaurantID ∈ c.restaurantIDs) :
    (c.send.length < c.sendCap →
        stepClient event c = some { c with send := c.send ++ [event] }) ∧
    (¬ c.send.length < c.sendCap → stepClient event c = none) ∧
    (∀ pre post : List WSClient,
        fanout (pre ++ c :: post) event =
          fanout pre event ++ (stepClient event c).toList ++ fanout post event) := by
  have hemp : ¬ c.restaurantIDs.isEmpty := by
    intro hemp
    rw [List.isEmpty_iff] at hemp
    rw [hemp] at hR
    exact List.not_mem_nil _ hR
  have hct : c.restaurantIDs.contains event.order.restaurantID = true :=
    List.elem_iff.mpr hR
  refine ⟨?_, ?_, ?_⟩
  · intro hlen
    unfold stepClient
    rw [if_neg hemp, if_neg (by rw [hct]; simp), if_pos hlen]
  · intro hlen
    unfold stepClient
    rw [if_neg hemp, if_neg (by rw [hct]; simp), if_neg hlen]
  · intro pre post
    unfold fanout
    rw [List.filterMap_append, List.filterMap_cons]
    cases hc : stepClient event c <;> simp

/-- C6 witness: a session entitled to restaurant 1 whose queue has no
free capacity is removed by the fan-out step, and the step over the full
membership list decomposes around it. -/
theorem fanout_nonblocking_witness :
    stepClient (eventFor 1) fullClient1 = none ∧
    fanout [client12, fullClient1, client3] (eventFor 1) =
      fanout [client12] (eventFor 1) ++ (stepClient (eventFor 1) fullClient1).toList ++
        fanout [client3] (eventFor 1) := by
  have h := fanout_nonblocking (eventFor 1) fullClient1 (by decide)
  exact ⟨h.2.1 (by decide), h.2.2 [client12] [client3]⟩

/-- C3: an order-placement call that returns any error leaves the store
exactly as it was: no order row, no order-item row, and no menu-item
quantity change from that call is observable afterwards (full rollback),
for the public path and the authenticated path alike. -/
theorem placeOrder_atomicity (s : Store) (restaurantID : Nat) (req : OrderRequest)
    (commitOk : Bool) (e : OrderError) :
    ((createPublicOrder s restaurantID req commitOk).1 = .error e →
        (createPublicOrder s restaurantID req commitOk).2 = s) ∧
    (∀ username, (createOrder s username restaurantID req commitOk).1 = .error e →
        (createOrder s username restaurantID req commitOk).2 = s) := by
  constructor
  · intro h
    unfold createPublicOrder at h ⊢
    cases hfr : findRestaurant s restaurantID with
    | none => simp [hfr]
    | some r =>
      cases hft : findTable s req.tableID r.id with
      | none => simp [hfr, hft]
      | some t =>
        cases hrl : runLines r.id
            { menuItems := s.menuItems, totalAmount := 0, orderItems := [] }
            req.orderItems with
        | error e2 => simp [hfr, hft, hrl]
        | ok tx =>
          cases commitOk with
          | true => simp [hfr, hft, hrl] at h
          | false => simp [hfr, hft, hrl]
  · intro username h
    unfold createOrder at h ⊢
    cases hfr : verifyRestaurantOwnership s username restaurantID with
    | none => simp [hfr]
    | some r =>
      cases hft : findTable s req.tableID r.id with
      | none => simp [hfr, hft]
      | some t =>
        cases hcl : computeLines r.id s.menuItems 0 [] req.orderItems with
        | error e2 => simp [hfr, hft, hcl]
        | ok lines =>
          cases commitOk with
          | true => simp [hfr, hft, hcl] at h
          | false => simp [hfr, hft, hcl]

/-- C3 witness: a public placement that fails with insufficient stock at
a concrete store leaves the store unchanged. -/
theorem placeOrder_atomicity_witness :
    (createPublicOrder (sampleStore 0) 1 oneBurgerReq true).1 =
        .error (.insufficientStock "Burger") ∧
    (createPublicOrder (sampleStore 0) 1 oneBurgerReq true).2 = sampleStore 0 := by
  have h := placeOrder_atomicity (sampleStore 0) 1 oneBurgerReq true
    (.insufficientStock "Burger")
  exact ⟨by decide, h.1 (by decide)⟩

theorem saveMenuItem_nonneg (l : List MenuItem) (u : MenuItem)
    (hl : ∀ m ∈ l, 0 ≤ m.quantity) (hu : 0 ≤ u.quantity) :
    ∀ m ∈ saveMenuItem l u, 0 ≤ m.quantity := by
  intro m hm
  rcases List.mem_map.mp hm with ⟨x, hx, hfx⟩
  rw [← hfx]
  by_cases hid : (x.id == u.id) = true
  · rw [if_pos hid]
    exact hu
  · rw [if_neg hid]
    exact hl x hx

theorem reserveLine_nonneg (restID : Nat) (st : TxState) (line : OrderLineRequest)
    (st2 : TxState) (h : reserveLine restID st line = .ok st2)
    (hl : ∀ m ∈ st.menuItems, 0 ≤ m.quantity) :
    ∀ m ∈ st2.menuItems, 0 ≤ m.quantity := by
  unfold reserveLine at h
  cases hf : findMenuItem st.menuItems line.menuItemID restID with
  | none =>
    rw [hf] at h
    exact absurd h (by simp)
  | some mi =>
    rw [hf] at h
    simp only at h
    by_cases hq : mi.quantity < normalizeQuantity line.quantity
    · rw [if_pos hq] at h
      exact absurd h (by simp)
    · rw [if_neg hq] at h
      simp only [Except.ok.injEq] at h
      rw [← h]
      apply saveMenuItem_nonneg st.menuItems _ hl
      simp only []
      split <;> omega

theorem runLines_nonneg (restID : Nat) (lines : List OrderLineRequest) :
    ∀ st tx, runLines restID st lines = .ok tx →
      (∀ m ∈ st.menuItems, 0 ≤ m.quantity) → ∀ m ∈ tx.menuItems, 0 ≤ m.quantity := by
  induction lines with
  | nil =>
    intro st tx h hl
    unfold runLines at h
    simp only [Except.ok.injEq] at h
    rw [← h]
    exact hl
  | cons line rest ih =>
    intro st tx h hl
    unfold runLines at h
    cases hr : reserveLine restID st line with
    | error e =>
      rw [hr] at h
      exact absurd h (by simp)
    | ok st2 =>
      rw [hr] at h
      exact ih st2 tx h (reserveLine_nonneg restID st line st2 hr hl)

/-- C2 corrected: in the public transaction loop, a line whose normalized
quantity exceeds the item's current quantity aborts with
`InsufficientStock` carrying the item's name, otherwise the quantity is
decremented by exactly the normalized amount; every quantity stays ≥ 0
through any public placement.  The authenticated `CreateOrder`, however,
never checks or mutates stock: its calls leave every menu-item row
unchanged. -/
theorem reserve_clamp_and_invariant :
    (∀ (restID : Nat) (st : TxState) (line : OrderLineRequest) (m : MenuItem),
        findMenuItem st.menuItems line.menuItemID restID = some m →
        ((m.quantity < normalizeQuantity line.quantity →
            reserveLine restID st line = .error (.insufficientStock m.name)) ∧
         (normalizeQuantity line.quantity ≤ m.quantity →
            reserveLine restID st line = .ok
              { menuItems := saveMenuItem st.menuItems
                  { m with quantity := m.quantity - normalizeQuantity line.quantity },
                totalAmount :=
                  st.totalAmount + m.price * ((normalizeQuantity line.quantity : Int) : ℚ),
                orderItems := st.orderItems ++ [mkOrderItem line] }))) ∧
    (∀ (s : Store) (restID : Nat) (req : OrderRequest) (commitOk : Bool),
        (∀ mi ∈ s.menuItems, 0 ≤ mi.quantity) →
        ∀ mi ∈ ((createPublicOrder s restID req commitOk).2).menuItems, 0 ≤ mi.quantity) ∧
    (∀ (s : Store) (username : String) (restID : Nat) (req : OrderRequest)
        (commitOk : Bool),
        ((createOrder s username restID req commitOk).2).menuItems = s.menuItems) := by
  refine ⟨?_, ?_, ?_⟩
  · intro restID st line m hf
    constructor
    · intro hlt
      unfold reserveLine
      rw [hf]
      simp only []
      rw [if_pos hlt]
    · intro hle
      unfold reserveLine
      rw [hf]
      simp only []
      rw [if_neg (not_lt.mpr hle), if_neg (by omega)]
  · intro s restID req commitOk hl
    unfold createPublicOrder
    cases hfr : findRestaurant s restID with
    | none =>
      simp only [hfr]
      exact hl
    | some r =>
      cases hft : findTable s req.tableID r.id with
      | none =>
        simp only [hfr, hft]
        exact hl
      | some t =>
        cases hrl : runLines r.id
            { menuItems := s.menuItems, totalAmount := 0, orderItems := [] }
            req.orderItems with
        | error e =>
          simp only [hfr, hft, hrl]
          exact hl
        | ok tx =>
          cases commitOk with
          | true =>
            simp only [hfr, hft, hrl, persistOrder, if_true]
            exact runLines_nonneg r.id req.orderItems _ tx hrl hl
          | false =>
            simp only [hfr, hft, hrl, if_false]
            exact hl
  · intro s username restID req commitOk
    unfold createOrder
    cases hfr : verifyRestaurantOwnership s username restID with
    | none => simp [hfr]
    | some r =>
      cases hft : findTable s req.tableID r.id with
      | none => simp [hfr, hft]
      | some t =>
        cases hcl : computeLines r.id s.menuItems 0 [] req.orderItems with
        | error e => simp [hfr, hft, hcl]
        | ok lines =>
          cases commitOk with
          | true => simp [hfr, hft, hcl, persistOrder]
          | false => simp [hfr, hft, hcl]

/-- C2 witness: the insufficient-stock branch at quantity 0, the exact
decrement at quantity 3, and the non-negativity of the concrete store's
item after a failed public placement. -/
theorem reserve_clamp_and_invariant_witness :
    reserveLine 1 (txBurger 0) lineBurger = .error (.insufficientStock "Burger") ∧
    reserveLine 1 (txBurger 3) lineBurger = .ok
      { menuItems := saveMenuItem (txBurger 3).menuItems
          { burger 3 with quantity := (burger 3).quantity - normalizeQuantity lineBurger.quantity },
        totalAmount :=
          (txBurger 3).totalAmount +
            (burger 3).price * ((normalizeQuantity lineBurger.quantity : Int) : ℚ),
        orderItems := (txBurger 3).orderItems ++ [mkOrderItem lineBurger] } ∧
    0 ≤ (burger 0).quantity := by
  have h := reserve_clamp_and_invariant
  refine ⟨?_, ?_, ?_⟩
  · have hb := (h.1 1 (txBurger 0) lineBurger (burger 0) (by decide)).1 (by decide)
    simpa using hb
  · exact (h.1 1 (txBurger 3) lineBurger (burger 3) (by decide)).2 (by decide)
  · exact h.2.1 (sampleStore 0) 1 oneBurgerReq true (by decide) (burger 0) (by decide)

/-- C2 counterexample: the claim quantifies over every placeOrder call,
but the authenticated `CreateOrder` performs no stock check: at a store
whose only item has quantity 0 and a request for 1 unit, the call does
not return `InsufficientStock` (it succeeds) and the stored quantity is
simply never touched. -/
theorem createOrder_no_stock_check :
    (burger 0).quantity < normalizeQuantity 1 ∧
    (createOrder (sampleStore 0) "alice" 1 oneBurgerReq true).1 ≠
        .error (.insufficientStock (burger 0).name) ∧
    ((createOrder (sampleStore 0) "alice" 1 oneBurgerReq true).2).menuItems =
        (sampleStore 0).menuItems := by
  decide

theorem reserveLine_orderItems (restID : Nat) (st : TxState) (line : OrderLineRequest)
    (st2 : TxState) (h : reserveLine restID st line = .ok st2) :
    st2.orderItems = st.orderItems ++ [mkOrderItem line] := by
  unfold reserveLine at h
  cases hf : findMenuItem st.menuItems line.menuItemID restID with
  | none =>
    rw [hf] at h
    exact absurd h (by simp)
  | some mi =>
    rw [hf] at h
    simp only at h
    by_cases hq : mi.quantity < normalizeQuantity line.quantity
    · rw [if_pos hq] at h
      exact absurd h (by simp)
    · rw [if_neg hq] at h
      simp only [Except.ok.injEq] at h
      rw [← h]

theorem runLines_orderItems (restID : Nat) (lines : List OrderLineRequest) :
    ∀ st tx, runLines restID st lines = .ok tx →
      tx.orderItems = st.orderItems ++ lines.map mkOrderItem := by
  induction lines with
  | nil =>
    intro st tx h
    unfold runLines at h
    simp only [Except.ok.injEq] at h
    rw [← h]
    simp
  | cons line rest ih =>
    intro st tx h
    unfold runLines at h
    cases hr : reserveLine restID st line with
    | error e =>
      rw [hr] at h
      exact absurd h (by simp)
    | ok st2 =>
      rw [hr] at h
      rw [ih st2 tx h, reserveLine_orderItems restID st line st2 hr]
      simp

theorem computeLines_orderItems (restID : Nat) (menuItems : List MenuItem)
    (lines : List OrderLineRequest) :
    ∀ total its T its2, computeLines restID menuItems total its lines = .ok (T, its2) →
      its2 = its ++ lines.map mkOrderItem := by
  induction lines with
  | nil =>
    intro total its T its2 h
    unfold computeLines at h
    simp only [Except.ok.injEq, Prod.mk.injEq] at h
    rw [← h.2]
    simp
  | cons line rest ih =>
    intro total its T its2 h
    unfold computeLines at h
    cases hf : findMenuItem menuItems line.menuItemID restID with
    | none =>
      rw [hf] at h
      exact absurd h (by simp)
    | some mi =>
      rw [hf] at h
      simp only at h
      rw [ih _ _ T its2 h]
      simp

theorem assignItemIDs_map_quantity (orderID : Nat) (items : List OrderItem) :
    ∀ k, (assignItemIDs orderID k items).map (fun it => it.quantity) =
      items.map (fun it => it.quantity) := by
  induction items with
  | nil =>
    intro k
    rfl
  | cons it rest ih =>
    intro k
    simp [assignItemIDs, ih (k + 1)]

/-- C8: a requested quantity ≤ 0 is processed as 1 — the reservation step
behaves exactly as if the request had asked for 1, so the persisted line
quantity, the stock decrement and the total contribution all use 1 — and
a requested quantity > 0 is used unchanged; on success the persisted
order's line quantities are exactly the normalized requested quantities,
on both entry points. -/
theorem quantity_normalization :
    (∀ q : Int, (q ≤ 0 → normalizeQuantity q = 1) ∧ (0 < q → normalizeQuantity q = q)) ∧
    (∀ line : OrderLineRequest, line.quantity ≤ 0 →
        mkOrderItem line = mkOrderItem { line with quantity := 1 } ∧
        (∀ (restID : Nat) (st : TxState),
            reserveLine restID st line = reserveLine restID st { line with quantity := 1 })) ∧
    (∀ (s : Store) (restID : Nat) (req : OrderRequest) (commitOk : Bool)
        (o : Order) (s2 : Store),
        createPublicOrder s restID req commitOk = (.ok o, s2) →
        o.orderItems.map (fun it => it.quantity) =
          req.orderItems.map (fun l => normalizeQuantity l.quantity)) ∧
    (∀ (s : Store) (username : String) (restID : Nat) (req : OrderRequest)
        (commitOk : Bool) (o : Order) (s2 : Store),
        createOrder s username restID req commitOk = (.ok o, s2) →
        o.orderItems.map (fun it => it.quantity) =
          req.orderItems.map (fun l => normalizeQuantity l.quantity)) := by
  refine ⟨?_, ?_, ?_, ?_⟩
  · intro q
    constructor
    · intro h
      unfold normalizeQuantity
      rw [if_pos h]
    · intro h
      unfold normalizeQuantity
      rw [if_neg (by omega)]
  · intro line hle
    have hnq : normalizeQuantity line.quantity = normalizeQuantity (1 : Int) := by
      unfold normalizeQuantity
      rw [if_pos hle, if_neg (by omega)]
    have hmk : mkOrderItem line = mkOrderItem { line with quantity := 1 } := by
      unfold mkOrderItem
      dsimp only
      rw [hnq]
    refine ⟨hmk, ?_⟩
    intro restID st
    unfold reserveLine
    dsimp only
    rw [hnq, hmk]
  · intro s restID req commitOk o s2 h
    unfold createPublicOrder at h
    cases hfr : findRestaurant s restID with
    | none => simp [hfr] at h
    | some r =>
      cases hft : findTable s req.tableID r.id with
      | none => simp [hfr, hft] at h
      | some t =>
        cases hrl : runLines r.id
            { menuItems := s.menuItems, totalAmount := 0, orderItems := [] }
            req.orderItems with
        | error e => simp [hfr, hft, hrl] at h
        | ok tx =>
          cases commitOk with
          | false => simp [hfr, hft, hrl] at h
          | true =>
            simp only [hfr, hft, hrl, if_true, Prod.mk.injEq, Except.ok.injEq] at h
            rw [← h.1]
            simp only [persistOrder]
            rw [assignItemIDs_map_quantity,
              runLines_orderItems r.id req.orderItems _ tx hrl]
            simp [List.map_map, Function.comp, mkOrderItem]
  · intro s username restID req commitOk o s2 h
    unfold createOrder at h
    cases hfr : verifyRestaurantOwnership s username restID with
    | none => simp [hfr] at h
    | some r =>
      cases hft : findTable s req.tableID r.id with
      | none => simp [hfr, hft] at h
      | some t =>
        cases hcl : computeLines r.id s.menuItems 0 [] req.orderItems with
        | error e => simp [hfr, hft, hcl] at h
        | ok lines =>
          cases commitOk with
          | false => simp [hfr, hft, hcl] at h
          | true =>
            simp only [hfr, hft, hcl, if_true, Prod.mk.injEq, Except.ok.injEq] at h
            rw [← h.1]
            simp only [persistOrder]
            rw [assignItemIDs_map_quantity,
              computeLines_orderItems r.id s.menuItems req.orderItems 0 [] lines.1
                lines.2 (by rw [← hcl])]
            simp [List.map_map, Function.comp, mkOrderItem]

/-- C8 witness: a requested quantity of -2 is normalized to 1, a
requested quantity of 3 is kept, and the reservation step at the
concrete store treats the -2 request exactly as a request for 1. -/
theorem quantity_normalization_witness :
    normalizeQuantity (-2) = 1 ∧
    normalizeQuantity 3 = 3 ∧
    reserveLine 1 (txBurger 3) { lineBurger with quantity := -2 } =
      reserveLine 1 (txBurger 3) { lineBurger with quantity := 1 } := by
  have h := quantity_normalization
  refine ⟨(h.1 (-2)).1 (by omega), (h.1 3).2 (by omega), ?_⟩
  have h2 := (h.2.1 { lineBurger with quantity := -2 } (by decide)).2 1 (txBurger 3)
  simpa using h2

theorem findMenuItem_catEq {l l' : List MenuItem} (h : List.Forall₂ catEq l l')
    (mid rid : Nat) :
    (findMenuItem l mid rid = none → findMenuItem l' mid rid = none) ∧
    (∀ a, findMenuItem l mid rid = some a →
        ∃ b, findMenuItem l' mid rid = some b ∧ catEq a b) := by
  induction h with
  | nil => simp [findMenuItem]
  | @cons a b l1 l2 hab htail ih =>
    obtain ⟨hid, hrid, hname, hprice⟩ := hab
    unfold findMenuItem at ih ⊢
    by_cases hp : (a.id == mid && a.restaurantID == rid) = true
    · have hpb : (b.id == mid && b.restaurantID == rid) = true := by
        rw [← hid, ← hrid]
        exact hp
      rw [List.find?_cons_of_pos l1 hp, List.find?_cons_of_pos l2 hpb]
      constructor
      · intro hcontra
        exact absurd hcontra (by simp)
      · intro x hx
        simp only [Option.some.injEq] at hx
        exact ⟨b, rfl, by rw [← hx]; exact ⟨hid, hrid, hname, hprice⟩⟩
    · have hpb : ¬ (b.id == mid && b.restaurantID == rid) = true := by
        rw [← hid, ← hrid]
        exact hp
      rw [List.find?_cons_of_neg l1 (by simpa using hp),
        List.find?_cons_of_neg l2 (by simpa using hpb)]
      exact ih

theorem saveMenuItem_map_id (l : List MenuItem) (u : MenuItem) :
    (saveMenuItem l u).map MenuItem.id = l.map MenuItem.id := by
  unfold saveMenuItem
  rw [List.map_map]
  apply List.map_congr_left
  intro x hx
  by_cases hid : (x.id == u.id) = true
  · simp only [Function.comp_apply, if_pos hid]
    exact (beq_iff_eq.mp hid).symm
  · simp only [Function.comp_apply, if_neg hid]

theorem saveMenuItem_forall₂ {l l' : List MenuItem} (h : List.Forall₂ catEq l l')
    (m : MenuItem) (k : Int) (huniq : ∀ a ∈ l, a.id = m.id → a = m) :
    List.Forall₂ catEq (saveMenuItem l { m with quantity := k }) l' := by
  induction h with
  | nil => exact List.Forall₂.nil
  | @cons a b l1 l2 hab htail ih =>
    simp only [saveMenuItem, List.map_cons]
    constructor
    · by_cases hid : (a.id == ({ m with quantity := k } : MenuItem).id) = true
      · rw [if_pos hid]
        have ham : a = m := huniq a (List.mem_cons_self a l1) (beq_iff_eq.mp hid)
        rw [← ham]
        exact ⟨hab.1, hab.2.1, hab.2.2.1, hab.2.2.2⟩
      · rw [if_neg hid]
        exact hab
    · exact ih (fun a2 ha2 hid2 => huniq a2 (List.mem_cons_of_mem a ha2) hid2)

theorem runLines_ok_computeLines (restID : Nat) (lines : List OrderLineRequest) :
    ∀ (st : TxState) (mi : List MenuItem) (tx : TxState),
      List.Forall₂ catEq st.menuItems mi →
      (st.menuItems.map MenuItem.id).Nodup →
      runLines restID st lines = .ok tx →
      computeLines restID mi st.totalAmount st.orderItems lines =
        .ok (tx.totalAmount, tx.orderItems) := by
  induction lines with
  | nil =>
    intro st mi tx hinv hn h
    unfold runLines at h
    simp only [Except.ok.injEq] at h
    rw [← h]
    rfl
  | cons line rest ih =>
    intro st mi tx hinv hn h
    unfold runLines at h
    cases hr : reserveLine restID st line with
    | error e =>
      rw [hr] at h
      exact absurd h (by simp)
    | ok st2 =>
      rw [hr] at h
      unfold reserveLine at hr
      cases hf : findMenuItem st.menuItems line.menuItemID restID with
      | none =>
        rw [hf] at hr
        exact absurd hr (by simp)
      | some m =>
        rw [hf] at hr
        simp only at hr
        by_cases hq : m.quantity < normalizeQuantity line.quantity
        · rw [if_pos hq] at hr
          exact absurd hr (by simp)
        · rw [if_neg hq] at hr
          simp only [Except.ok.injEq] at hr
          obtain ⟨b, hfb, hbcat⟩ := (findMenuItem_catEq hinv line.menuItemID restID).2 m hf
          have hm_mem : m ∈ st.menuItems := List.mem_of_find?_eq_some hf
          have huniq : ∀ a ∈ st.menuItems, a.id = m.id → a = m :=
            fun a ha hid => List.inj_on_of_nodup_map hn ha hm_mem hid
          have hinv2 : List.Forall₂ catEq st2.menuItems mi := by
            rw [← hr]
            exact saveMenuItem_forall₂ hinv m _ huniq
          have hn2 : (st2.menuItems.map MenuItem.id).Nodup := by
            rw [← hr]
            simp only
            rw [saveMenuItem_map_id]
            exact hn
          have hrec := ih st2 mi tx hinv2 hn2 h
          rw [← hr] at hrec
          simp only at hrec
          unfold computeLines
          rw [hfb]
          simp only
          obtain ⟨hbid, hbrid, hbname, hbprice⟩ := hbcat
          rw [← hbprice]
          exact hrec

theorem computeLines_never_insufficient (restID : Nat) (menuItems : List MenuItem)
    (lines : List OrderLineRequest) :
    ∀ total its e, computeLines restID menuItems total its lines = .error e →
      e = .itemNotFound := by
  induction lines with
  | nil =>
    intro total its e h
    exact absurd h (by simp [computeLines])
  | cons line rest ih =>
    intro total its e h
    unfold computeLines at h
    cases hf : findMenuItem menuItems line.menuItemID restID with
    | none =>
      rw [hf] at h
      simp only [Except.error.injEq] at h
      exact h.symm
    | some m =>
      rw [hf] at h
      simp only at h
      exact ih _ _ e h

/-- C1 corrected: the two entry points share the table check, item
lookup, quantity normalization and total computation — whenever the
public path succeeds, the authenticated path on the same state and
request produces the very same persisted order — but they are not
behaviorally identical: the authenticated `CreateOrder` never returns
`InsufficientStock` and performs no inventory mutation (its post-state is
the public post-state with the menu items reset to the pre-call rows). -/
theorem createOrder_vs_public (s : Store) (username : String) (restID : Nat)
    (req : OrderRequest) (commitOk : Bool) (r : Restaurant)
    (hown : verifyRestaurantOwnership s username restID = some r)
    (hpub : findRestaurant s restID = some r)
    (hn : (s.menuItems.map MenuItem.id).Nodup) :
    (∀ name, (createOrder s username restID req commitOk).1 ≠
        .error (.insufficientStock name)) ∧
    (∀ (o : Order) (s2 : Store),
        createPublicOrder s restID req commitOk = (.ok o, s2) →
        createOrder s username restID req commitOk =
          (.ok o, { s2 with menuItems := s.menuItems })) := by
  constructor
  · intro name
    unfold createOrder
    cases hfr : verifyRestaurantOwnership s username restID with
    | none => simp [hfr]
    | some r2 =>
      cases hft : findTable s req.tableID r2.id with
      | none => simp [hfr, hft]
      | some t =>
        cases hcl : computeLines r2.id s.menuItems 0 [] req.orderItems with
        | error e =>
          have he := computeLines_never_insufficient r2.id s.menuItems req.orderItems
            0 [] e hcl
          simp [hfr, hft, hcl, he]
        | ok lines =>
          cases commitOk with
          | true => simp [hfr, hft, hcl]
          | false => simp [hfr, hft, hcl]
  · intro o s2 h
    unfold createPublicOrder at h
    cases hft : findTable s req.tableID r.id with
    | none => simp [hpub, hft] at h
    | some t =>
      cases hrl : runLines r.id
          { menuItems := s.menuItems, totalAmount := 0, orderItems := [] }
          req.orderItems with
      | error e => simp [hpub, hft, hrl] at h
      | ok tx =>
        cases commitOk with
        | false => simp [hpub, hft, hrl] at h
        | true =>
          simp only [hpub, hft, hrl, if_true, Prod.mk.injEq, Except.ok.injEq] at h
          have hcomp := runLines_ok_computeLines r.id req.orderItems
            { menuItems := s.menuItems, totalAmount := 0, orderItems := [] }
            s.menuItems tx
            (List.forall₂_same.mpr (fun x _ => ⟨rfl, rfl, rfl, rfl⟩)) hn hrl
          simp only at hcomp
          unfold createOrder
          simp only [hown, hft, hcomp, if_true]
          rw [← h.1, ← h.2]
          rfl

/-- C1 witness: at a store with sufficient stock the public placement
succeeds, and the authenticated placement returns the identical order
with the public post-state's menu items reset to the originals. -/
theorem createOrder_vs_public_witness :
    createOrder (sampleStore 3) "alice" 1 oneBurgerReq true =
      (.ok createdOrder100,
        { storeAfterPublic with menuItems := (sampleStore 3).menuItems }) := by
  have h := createOrder_vs_public (sampleStore 3) "alice" 1 oneBurgerReq true resto1
    (by decide) (by decide) (by decide)
  exact h.2 createdOrder100 storeAfterPublic (by
    simp +decide [createPublicOrder, sampleStore, oneBurgerReq, findRestaurant, findTable,
      aliceUser, resto1, table5, burger, pendingOrder9, runLines, reserveLine, findMenuItem,
      saveMenuItem, mkOrderItem, normalizeQuantity, persistOrder, assignItemIDs,
      createdOrder100, storeAfterPublic])

/-- C1 counterexample: the claim asserts identical error outcomes for
identical requests, but at a store whose only item has quantity 0 the
public path fails with `InsufficientStock` while the authenticated path
returns a different (successful) outcome. -/
theorem createOrder_vs_public_divergence :
    (createPublicOrder (sampleStore 0) 1 oneBurgerReq true).1 =
        .error (.insufficientStock "Burger") ∧
    (createOrder (sampleStore 0) "alice" 1 oneBurgerReq true).1 ≠
        (createPublicOrder (sampleStore 0) 1 oneBurgerReq true).1 := by
  decide

theorem computeLines_total (restID : Nat) (menuItems : List MenuItem)
    (lines : List OrderLineRequest) :
    ∀ total its T its2, computeLines restID menuItems total its lines = .ok (T, its2) →
      specOrderTotal menuItems restID lines = some (T - total) := by
  induction lines with
  | nil =>
    intro total its T its2 h
    unfold computeLines at h
    simp only [Except.ok.injEq, Prod.mk.injEq] at h
    unfold specOrderTotal
    rw [← h.1]
    simp
  | cons line rest ih =>
    intro total its T its2 h
    unfold computeLines at h
    cases hf : findMenuItem menuItems line.menuItemID restID with
    | none =>
      rw [hf] at h
      exact absurd h (by simp)
    | some m =>
      rw [hf] at h
      simp only at h
      have hrec := ih _ _ T its2 h
      unfold specOrderTotal
      rw [hf, hrec]
      simp only [Option.some.injEq]
      ring

/-- C7: a successful placement persists a total equal to the sum over the
request lines of the pre-call store's unit price times the normalized
quantity (price at placement time), on both entry points; and a later
menu-item price update never touches the orders table, so stored totals
are unaffected by price changes after placement. -/
theorem totalAmount_placement (s : Store) (req : OrderRequest) (commitOk : Bool) :
    (∀ (username : String) (restID : Nat) (o : Order) (s2 : Store) (r : Restaurant),
        verifyRestaurantOwnership s username restID = some r →
        createOrder s username restID req commitOk = (.ok o, s2) →
        specOrderTotal s.menuItems r.id req.orderItems = some o.totalAmount) ∧
    (∀ (restID : Nat) (o : Order) (s2 : Store) (r : Restaurant),
        findRestaurant s restID = some r →
        (s.menuItems.map MenuItem.id).Nodup →
        createPublicOrder s restID req commitOk = (.ok o, s2) →
        specOrderTotal s.menuItems r.id req.orderItems = some o.totalAmount) ∧
    (∀ (username : String) (restID itemID : Nat) (req2 : MenuItemUpdateRequest),
        ((updateMenuItem s username restID itemID req2).2).orders = s.orders) := by
  refine ⟨?_, ?_, ?_⟩
  · intro username restID o s2 r hr h
    unfold createOrder at h
    cases hft : findTable s req.tableID r.id with
    | none => simp [hr, hft] at h
    | some t =>
      cases hcl : computeLines r.id s.menuItems 0 [] req.orderItems with
      | error e => simp [hr, hft, hcl] at h
      | ok lines =>
        cases commitOk with
        | false => simp [hr, hft, hcl] at h
        | true =>
          simp only [hr, hft, hcl, if_true, Prod.mk.injEq, Except.ok.injEq] at h
          have htot := computeLines_total r.id s.menuItems req.orderItems 0 []
            lines.1 lines.2 (by rw [← hcl])
          rw [htot, ← h.1]
          simp [persistOrder]
  · intro restID o s2 r hr hn h
    unfold createPublicOrder at h
    cases hft : findTable s req.tableID r.id with
    | none => simp [hr, hft] at h
    | some t =>
      cases hrl : runLines r.id
          { menuItems := s.menuItems, totalAmount := 0, orderItems := [] }
          req.orderItems with
      | error e => simp [hr, hft, hrl] at h
      | ok tx =>
        cases commitOk with
        | false => simp [hr, hft, hrl] at h
        | true =>
          simp only [hr, hft, hrl, if_true, Prod.mk.injEq, Except.ok.injEq] at h
          have hcomp := runLines_ok_computeLines r.id req.orderItems
            { menuItems := s.menuItems, totalAmount := 0, orderItems := [] }
            s.menuItems tx
            (List.forall₂_same.mpr (fun x _ => ⟨rfl, rfl, rfl, rfl⟩)) hn hrl
          simp only at hcomp
          have htot := computeLines_total r.id s.menuItems req.orderItems 0 []
            tx.totalAmount tx.orderItems hcomp
          rw [htot, ← h.1]
          simp [persistOrder]
  · intro username restID itemID req2
    unfold updateMenuItem
    cases hfr : verifyRestaurantOwnership s username restID with
    | none => rfl
    | some r =>
      cases hfm : findMenuItem s.menuItems itemID r.id with
      | none => simp [hfr, hfm]
      | some m => simp [hfr, hfm]

/-- C7 witness: the concrete successful placement's persisted total, 5,
equals the spec sum price(Burger) × 1 over the single request line. -/
theorem totalAmount_placement_witness :
    specOrderTotal (sampleStore 3).menuItems 1 oneBurgerReq.orderItems =
      some createdOrder100.totalAmount := by
  have h := totalAmount_placement (sampleStore 3) oneBurgerReq true
  exact h.1 "alice" 1 createdOrder100
    { storeAfterPublic with menuItems := (sampleStore 3).menuItems } resto1
    (by decide) (by
      simp +decide [createOrder, sampleStore, oneBurgerReq, verifyRestaurantOwnership,
        findUser, findTable, aliceUser, resto1, table5, burger, pendingOrder9,
        computeLines, findMenuItem, mkOrderItem, normalizeQuantity, persistOrder,
        assignItemIDs, createdOrder100, storeAfterPublic])

end OrderSystem
